import Mathlib

/-!
Verification development for the getsitedna crawl-and-orchestrate engine.

The definitions below are a shallow embedding of the Python source:
* `models/page.py` and `models/site.py` (Page / Site data model),
* `crawlers/static_crawler.py` and `crawlers/dynamic_crawler.py`
  (URL discovery and the level-by-level crawl loop),
* `utils/error_handling.py` (error handler, retry, circuit breaker),
* `utils/performance.py` (batch processor),
* `utils/validation.py` (`normalize_url`).

Machine integers are modelled as `Int`/`Nat`; wall-clock timestamps are
explicit `Int` parameters (Python's `datetime.now()` / `time.time()`);
Python dicts are insertion-ordered association lists; `float` quantities
that the claims evaluate exactly (retry delays) are modelled as `ℚ`.
External library calls (the `validators` package, `urllib` domain
parsing, the robots.txt parser) are modelled as oracle functions
supplied as parameters.
-/

namespace GetSiteDNA

/-! ## models/schemas.py : CrawlStatus -/

/-- `CrawlStatus` enum from `models/schemas.py`
(`pending / crawling / completed / failed`). -/
inductive CrawlStatus where
  | pending
  | crawling
  | completed
  | failed
deriving DecidableEq, Repr

/-! ## models/page.py : Page

Fields not read by any claim (SEO metadata, children, links, raw HTML,
errors/warnings) are omitted; `assets` and `components` keep only what
the Site statistics read (their lengths are `len(p.assets)` and
`len(p.structure.components)`). -/

/-- Shallow embedding of `Page` (`models/page.py`). -/
structure PageM where
  url : String
  depth : Nat := 0
  parent_url : Option String := none
  status : CrawlStatus := .pending
  status_code : Option Int := none
  content_type : Option String := none
  discovered_at : Int := 0
  crawled_at : Option Int := none
  analyzed_at : Option Int := none
  assets : List String := []
  components : List String := []
deriving DecidableEq, Repr

/-- `Page.mark_crawled` (`models/page.py` lines 145-150):
status becomes COMPLETED when `200 <= status_code < 300`, FAILED
otherwise; the code, content type and crawl timestamp are recorded. -/
def PageM.mark_crawled (p : PageM) (now : Int) (code : Int)
    (content_type : Option String) : PageM :=
  { p with
    status := if 200 ≤ code ∧ code < 300 then .completed else .failed
    status_code := some code
    content_type := content_type
    crawled_at := some now }

/-- `Page.is_successful` (`models/page.py` lines 104-111).  The Python
expression `self.status_code and 200 <= self.status_code < 300` treats
`None` and `0` as falsy, which the `match` reproduces. -/
def PageM.is_successful (p : PageM) : Bool :=
  p.status == .completed &&
    (match p.status_code with
     | none => false
     | some c => !(c == 0) && decide (200 ≤ c) && decide (c < 300))

/-! ## models/site.py : CrawlConfig, SiteStats, Site -/

/-- `CrawlConfig` (`models/site.py`), with the pydantic defaults.
`rate_limit_delay` is a float in the source, modelled as `ℚ`. -/
structure CrawlConfig where
  max_depth : Nat := 2
  max_pages : Nat := 50
  include_assets : Bool := true
  respect_robots_txt : Bool := true
  rate_limit_delay : ℚ := 1
  concurrent_requests : Nat := 5
  browser_engine : String := "chromium"
  timeout : Nat := 30
deriving DecidableEq, Repr

/-- `SiteStats` (`models/site.py`).  Durations are
`timedelta.total_seconds()` floats in the source; with timestamps
modelled as integer seconds they are `Int`. -/
structure SiteStats where
  total_pages_discovered : Nat := 0
  total_pages_crawled : Nat := 0
  total_pages_analyzed : Nat := 0
  total_assets_found : Nat := 0
  total_assets_downloaded : Nat := 0
  total_components_identified : Nat := 0
  total_patterns_identified : Nat := 0
  crawl_duration_seconds : Option Int := none
  analysis_duration_seconds : Option Int := none
deriving DecidableEq, Repr

/-- Shallow embedding of `Site` (`models/site.py`).  `pages` is the
insertion-ordered dict `url -> Page` (unique keys);
`experience_patterns` keeps only the pattern names (the stats read its
length). -/
structure SiteM where
  base_url : String
  domain : String := ""
  config : CrawlConfig := {}
  analysis_started_at : Int := 0
  analysis_completed_at : Option Int := none
  pages : List (String × PageM) := []
  experience_patterns : List String := []
  stats : SiteStats := {}
  errors : List String := []
  warnings : List String := []
deriving DecidableEq, Repr

/-- Python-dict insertion: overwrite in place when the key exists,
append otherwise. -/
def dictInsert (k : String) (v : PageM) :
    List (String × PageM) → List (String × PageM)
  | [] => [(k, v)]
  | (k', v') :: rest =>
      if k' = k then (k, v) :: rest else (k', v') :: dictInsert k v rest

/-- `Site.add_page` (`models/site.py` lines 133-137): insert under
`str(page.url)` and refresh `stats.total_pages_discovered`. -/
def SiteM.add_page (s : SiteM) (p : PageM) : SiteM :=
  let pages' := dictInsert p.url p s.pages
  { s with
    pages := pages'
    stats := { s.stats with total_pages_discovered := pages'.length } }

/-- `Site.has_page` (`models/site.py` lines 143-145). -/
def SiteM.has_page (s : SiteM) (url : String) : Bool :=
  s.pages.any (fun kv => kv.1 == url)

/-- `Site.get_pages_by_depth` (`models/site.py` lines 147-149). -/
def SiteM.get_pages_by_depth (s : SiteM) (depth : Nat) : List PageM :=
  (s.pages.filter (fun kv => kv.2.depth == depth)).map (fun kv => kv.2)

/-- `Site.mark_analysis_complete` (`models/site.py` lines 200-214):
stamps `analysis_completed_at = now`, recomputes the count statistics
from the current page map, and recomputes
`analysis_duration_seconds = completed - started` (the guard
`if self.analysis_started_at` is always true: a datetime is truthy). -/
def SiteM.mark_analysis_complete (s : SiteM) (now : Int) : SiteM :=
  { s with
    analysis_completed_at := some now
    stats := { s.stats with
      total_pages_crawled :=
        (s.pages.filter (fun kv => kv.2.is_successful)).length
      total_pages_analyzed :=
        (s.pages.filter (fun kv => kv.2.analyzed_at.isSome)).length
      total_assets_found :=
        (s.pages.map (fun kv => kv.2.assets.length)).sum
      total_components_identified :=
        ((s.pages.filter (fun kv => kv.2.analyzed_at.isSome)).map
          (fun kv => kv.2.components.length)).sum
      total_patterns_identified := s.experience_patterns.length
      analysis_duration_seconds := some (now - s.analysis_started_at) } }

/-! ## utils/validation.py : normalize_url

`is_valid_url` (the external `validators` package) and
`is_same_domain` (`urllib.parse` netloc comparison) are external
library calls; they appear below as oracle fields of `UrlEnv`. -/

/-- `str.startswith(p)`, expressed on the character list (the built-in
`String.startsWith` is logically equivalent but not kernel-reducible). -/
def strStartsWith (s p : String) : Bool := p.data.isPrefixOf s.data

/-- `str.rstrip("/")`: drop every trailing `'/'`. -/
def stripTrailingSlashes (s : String) : String :=
  ⟨(s.data.reverse.dropWhile (fun c => c = '/')).reverse⟩

/-- `normalize_url` (`utils/validation.py` lines 20-32): prepend
`https://` when no scheme is present, then strip trailing slashes. -/
def normalize_url (url : String) : String :=
  if url = "" then url
  else
    let url1 :=
      if strStartsWith url "http://" || strStartsWith url "https://" then url
      else "https://" ++ url
    stripTrailingSlashes url1

/-- Oracle bundle for the external URL predicates: `valid` models
`is_valid_url` (the `validators` package), `sameDomain` models
`is_same_domain`, and `canFetch` models
`RobotsChecker.can_fetch` (`urllib.robotparser` over the fetched
robots.txt, so its value depends on the crawled environment). -/
structure UrlEnv where
  valid : String → Bool
  sameDomain : String → String → Bool
  canFetch : String → Bool

/-! ## crawlers/static_crawler.py and crawlers/dynamic_crawler.py -/

/-- The per-crawler mutable state shared by both strategies: the Site
being built plus the `discovered_urls` / `crawled_urls` sets (modelled
as duplicate-free lists in insertion order). -/
structure CrawlerState where
  site : SiteM
  discovered_urls : List String := []
  crawled_urls : List String := []
deriving DecidableEq, Repr

/-- The `Page(url=..., depth=..., parent_url=...)` constructor call
made by `_add_discovered_url` (all other fields take their defaults). -/
def mkPage (url : String) (depth : Nat) (parent_url : Option String) :
    PageM :=
  { url := url, depth := depth, parent_url := parent_url }

namespace StaticCrawler

/-- `StaticCrawler._add_discovered_url`
(`crawlers/static_crawler.py` lines 119-157): normalize, then reject in
order on: already discovered, invalid URL, foreign domain,
`depth > max_depth`, `len(discovered) >= max_pages`, and — when
`respect_robots_txt` — a robots denial; otherwise record the URL and
insert a fresh pending Page into the Site. -/
def add_discovered_url (env : UrlEnv) (st : CrawlerState) (url : String)
    (depth : Nat) (parent_url : Option String) : CrawlerState :=
  let n := normalize_url url
  if st.discovered_urls.contains n then st
  else if !(env.valid n) then st
  else if !(env.sameDomain n st.site.base_url) then st
  else if st.site.config.max_depth < depth then st
  else if st.site.config.max_pages ≤ st.discovered_urls.length then st
  else if st.site.config.respect_robots_txt && !(env.canFetch n) then st
  else
    { st with
      discovered_urls := st.discovered_urls ++ [n]
      site := st.site.add_page (mkPage n depth parent_url) }

end StaticCrawler

namespace DynamicCrawler

/-- `DynamicCrawler._add_discovered_url`
(`crawlers/dynamic_crawler.py` lines 87-121): same gates as the static
strategy except that no robots.txt check is performed; the Page is
inserted only when the Site does not already hold that URL. -/
def add_discovered_url (env : UrlEnv) (st : CrawlerState) (url : String)
    (depth : Nat) (parent_url : Option String) : CrawlerState :=
  let n := normalize_url url
  if st.discovered_urls.contains n then st
  else if !(env.valid n) then st
  else if !(env.sameDomain n st.site.base_url) then st
  else if st.site.config.max_depth < depth then st
  else if st.site.config.max_pages ≤ st.discovered_urls.length then st
  else
    let site :=
      if st.site.has_page n then st.site
      else st.site.add_page (mkPage n depth parent_url)
    { st with discovered_urls := st.discovered_urls ++ [n], site := site }

end DynamicCrawler

/-- One `_add_discovered_url(url, depth, parent_url)` invocation, used
to quantify over crawl histories. -/
structure AddCall where
  url : String
  depth : Nat
  parent_url : Option String

/-- A Site as constructed at the start of an analysis run: empty page
map, empty stats (`core/analyzer.py` builds `Site(base_url=...,
config=...)` before handing it to a crawler). -/
def freshSite (base domain : String) (cfg : CrawlConfig)
    (started : Int) : SiteM :=
  { base_url := base, domain := domain, config := cfg
    analysis_started_at := started }

/-- Fold a crawl history through the static strategy's discovery. -/
def runStatic (env : UrlEnv) (st : CrawlerState) (calls : List AddCall) :
    CrawlerState :=
  calls.foldl
    (fun s c => StaticCrawler.add_discovered_url env s c.url c.depth c.parent_url)
    st

/-- Fold a crawl history through the dynamic strategy's discovery. -/
def runDynamic (env : UrlEnv) (st : CrawlerState) (calls : List AddCall) :
    CrawlerState :=
  calls.foldl
    (fun s c => DynamicCrawler.add_discovered_url env s c.url c.depth c.parent_url)
    st

/-- The two bounds of claim C3: the page map never exceeds `max_pages`
entries and no stored Page exceeds `max_depth`. -/
def BudgetInv (st : CrawlerState) : Prop :=
  st.site.pages.length ≤ st.site.config.max_pages ∧
  ∀ kv ∈ st.site.pages, kv.2.depth ≤ st.site.config.max_depth

/-- Strengthened inductive invariant for C3: the page map is keyed
within the discovered set (so it is no larger), the discovered set
respects the page budget, and all stored depths respect the depth
budget. -/
def CrawlInv (st : CrawlerState) : Prop :=
  st.site.pages.length ≤ st.discovered_urls.length ∧
  st.discovered_urls.length ≤ st.site.config.max_pages ∧
  ∀ kv ∈ st.site.pages, kv.2.depth ≤ st.site.config.max_depth

/-! ## The level-by-level crawl loop (`_crawl_by_depth`)

`DynamicCrawler._crawl_by_depth` (lines 123-149) runs one depth level
at a time: it collects the pending pages of that depth, dispatches
them all concurrently (bounded by a semaphore), and `await`s the whole
`asyncio.gather` — a synchronization barrier — before moving to the
next depth.  `StaticCrawler._crawl_by_depth` (lines 159-173) is the
same loop with strictly sequential fetches.

The state evolution of one fetch is `crawl_page` below; the network is
the oracle `statusOf` (HTTP status per URL, with fetch failures
modelled as non-2xx statuses) and `linkOf` (hrefs found on a rendered
page; `_extract_dynamic_links` feeds the same-domain ones back through
`_add_discovered_url`, which itself re-checks validity and domain, so
folding every href through `add_discovered_url` is equivalent).
The observable dispatch/settle order of a level is an arbitrary
interleaving, constrained only by `LevelSchedule`. -/

/-- Replace the Page stored under `url` (mutation of the dict value in
the source). -/
def SiteM.updatePage (s : SiteM) (url : String) (f : PageM → PageM) :
    SiteM :=
  { s with
    pages := s.pages.map (fun kv => if kv.1 = url then (kv.1, f kv.2) else kv) }

namespace DynamicCrawler

/-- State effect of `DynamicCrawler._crawl_page` (lines 156-212): skip
if already crawled; stamp the response onto the Page; on a 2xx
response, feed every discovered link through `_add_discovered_url` at
`depth + 1` and record the URL as crawled. -/
def crawl_page (env : UrlEnv) (linkOf : String → List String)
    (statusOf : String → Int) (now : Int) (st : CrawlerState)
    (p : PageM) : CrawlerState :=
  if st.crawled_urls.contains p.url then st
  else
    let code := statusOf p.url
    let st1 : CrawlerState :=
      { st with
        site := st.site.updatePage p.url (fun q => q.mark_crawled now code none) }
    if 200 ≤ code ∧ code < 300 then
      let st2 := (linkOf p.url).foldl
        (fun s l => add_discovered_url env s l (p.depth + 1) (some p.url)) st1
      { st2 with crawled_urls := st2.crawled_urls ++ [p.url] }
    else st1

end DynamicCrawler

/-- The pages dispatched at a depth level: the pending pages of that
depth — none at all when the crawled-page budget is already spent (the
`break` in `_crawl_by_depth` fires before any task of the level starts,
and `crawled_urls` does not change during task creation). -/
def dispatchedAtLevel (st : CrawlerState) (depth : Nat) : List PageM :=
  if st.site.config.max_pages ≤ st.crawled_urls.length then []
  else
    (st.site.get_pages_by_depth depth).filter
      (fun p => p.status == CrawlStatus.pending)

/-- State after the `asyncio.gather` barrier of one depth level. -/
def runLevel (env : UrlEnv) (linkOf : String → List String)
    (statusOf : String → Int) (now : Int) (st : CrawlerState)
    (depth : Nat) : CrawlerState :=
  (dispatchedAtLevel st depth).foldl
    (DynamicCrawler.crawl_page env linkOf statusOf now) st

/-- Crawler state at the start of level `d` (after levels `0..d-1`
have fully settled). -/
def statesUpTo (env : UrlEnv) (linkOf : String → List String)
    (statusOf : String → Int) (now : Int) (st0 : CrawlerState) :
    Nat → CrawlerState
  | 0 => st0
  | d + 1 =>
      runLevel env linkOf statusOf now
        (statesUpTo env linkOf statusOf now st0 d) d

/-- Observable fetch events: a page's fetch being dispatched, and that
fetch settling (completing or failing). -/
inductive FetchEvent where
  | dispatch (url : String) (depth : Nat)
  | settle (url : String) (depth : Nat)
deriving DecidableEq, Repr

/-- The depth tag of an event. -/
def FetchEvent.depth : FetchEvent → Nat
  | .dispatch _ d => d
  | .settle _ d => d

/-- A legal observable schedule of one depth level: every event in the
block belongs to a page of that level, and every page of the level is
dispatched in the block and settles later in the same block (the
`gather` barrier).  The interleaving is otherwise arbitrary. -/
def LevelSchedule (ps : List PageM) (d : Nat) (blk : List FetchEvent) :
    Prop :=
  (∀ e ∈ blk, e.depth = d ∧
    ∃ p ∈ ps, e = .dispatch p.url d ∨ e = .settle p.url d) ∧
  ∀ p ∈ ps, ∃ i j : Fin blk.length, (i : Nat) < (j : Nat) ∧
    blk.get i = .dispatch p.url d ∧ blk.get j = .settle p.url d

/-! ## utils/error_handling.py : classification, handler, retry,
circuit breaker -/

/-- `ErrorSeverity` enum. -/
inductive ErrorSeverity where
  | low
  | medium
  | high
  | critical
deriving DecidableEq, Repr

/-- `ErrorCategory` enum. -/
inductive ErrorCategory where
  | network
  | parsing
  | validation
  | authentication
  | rate_limit
  | timeout
  | browser
  | file_system
  | unknown
deriving DecidableEq, Repr

/-- `AnalysisError` (`utils/error_handling.py` lines 37-47): the
classified form every error takes inside the handler.  `context` is
not read by any claim and is omitted. -/
structure AnalysisErrorM where
  message : String
  category : ErrorCategory := .unknown
  severity : ErrorSeverity := .medium
  timestamp : Int := 0
deriving DecidableEq, Repr

/-- One entry of the handler's trailing `recent_errors` window. -/
structure ErrorSummary where
  timestamp : Int
  category : ErrorCategory
  severity : ErrorSeverity
  message : String
deriving DecidableEq, Repr

/-- The handler's `error_stats` dict: running totals by category and
severity plus the capped trailing window. -/
structure ErrorStats where
  total_errors : Nat := 0
  by_category : List (ErrorCategory × Nat) := []
  by_severity : List (ErrorSeverity × Nat) := []
  recent_errors : List ErrorSummary := []
deriving DecidableEq, Repr

/-- `dict.get(k, 0) + 1` store, insertion-ordered. -/
def countBump {κ : Type} [DecidableEq κ] (k : κ) :
    List (κ × Nat) → List (κ × Nat)
  | [] => [(k, 1)]
  | (k', n) :: rest =>
      if k' = k then (k, n + 1) :: rest else (k', n) :: countBump k rest

/-- `dict.get(k, 0)` lookup. -/
def countGet {κ : Type} [DecidableEq κ] (k : κ) : List (κ × Nat) → Nat
  | [] => 0
  | (k', n) :: rest => if k' = k then n else countGet k rest

/-- `ErrorHandler._update_stats` (lines 190-213): bump the total and
the per-category / per-severity counts, append a truncated summary and
keep only the last 50. -/
def ErrorStats.update (st : ErrorStats) (e : AnalysisErrorM) : ErrorStats :=
  let recent := st.recent_errors ++
    [{ timestamp := e.timestamp, category := e.category,
       severity := e.severity, message := e.message.take 100 }]
  { total_errors := st.total_errors + 1
    by_category := countBump e.category st.by_category
    by_severity := countBump e.severity st.by_severity
    recent_errors :=
      if 50 < recent.length then recent.drop (recent.length - 50) else recent }

namespace ErrorHandler

/-- `ErrorHandler.handle_error` (lines 116-130) restricted to inputs
that are already `AnalysisError`s (the retry and breaker paths the
claims exercise): the error passes through unchanged and the stats are
updated. -/
def handle_error (st : ErrorStats) (e : AnalysisErrorM) :
    ErrorStats × AnalysisErrorM :=
  (st.update e, e)

/-- `ErrorHandler.should_continue` (lines 219-234). -/
def should_continue (st : ErrorStats) (e : AnalysisErrorM) : Bool :=
  if e.severity = .critical then false
  else if 10 < countGet ErrorSeverity.high st.by_severity then false
  else if 100 < st.total_errors then false
  else true

end ErrorHandler

/-- `RetryConfig` (lines 237-250), float fields as `ℚ`. -/
structure RetryConfig where
  max_attempts : Nat := 3
  base_delay : ℚ := 1
  max_delay : ℚ := 60
  exponential_base : ℚ := 2
  jitter : Bool := true
deriving DecidableEq, Repr

/-- `calculate_delay` (lines 329-338).  `rand` models
`random.random()`, a uniform draw from `[0, 1)`; the jitter multiplies
the clamped delay by `0.5 + rand * 0.5`. -/
def calculate_delay (attempt : Nat) (config : RetryConfig) (rand : ℚ) : ℚ :=
  let delay := config.base_delay * config.exponential_base ^ attempt
  let delay := min delay config.max_delay
  if config.jitter then delay * (1/2 + rand * (1/2)) else delay

/-- The retry loop of `retry_on_error` (`sync_wrapper`, lines 294-318),
with an attached error handler.  Arguments: the wrapped function as
attempt-indexed outcomes, the current attempt index, the remaining
attempts, the handler stats and the saved `last_exception`.  Returns
the outcome (`.error none` models Python's degenerate `raise None`
when `max_attempts = 0`), the final handler stats, and how many times
the wrapped function was invoked.  Sleeps between attempts are not
observable here. -/
def retryAux {α : Type} (f : Nat → Except AnalysisErrorM α) :
    Nat → Nat → ErrorStats → Option AnalysisErrorM →
    Except (Option AnalysisErrorM) α × ErrorStats × Nat
  | _, 0, st, last =>
      match last with
      | some e => (.error (some e), (ErrorHandler.handle_error st e).1, 0)
      | none => (.error none, st, 0)
  | attempt, rem + 1, st, _ =>
      match f attempt with
      | .ok v => (.ok v, st, 1)
      | .error e =>
          let st' := (ErrorHandler.handle_error st e).1
          if ErrorHandler.should_continue st' e then
            let r := retryAux f (attempt + 1) rem st' (some e)
            (r.1, r.2.1, r.2.2 + 1)
          else
            (.error (some e), (ErrorHandler.handle_error st' e).1, 1)

/-- `retry_on_error(config, error_handler)` applied to a function. -/
def retry_on_error {α : Type} (config : RetryConfig)
    (f : Nat → Except AnalysisErrorM α) (st : ErrorStats) :
    Except (Option AnalysisErrorM) α × ErrorStats × Nat :=
  retryAux f 0 config.max_attempts st none

/-- Handler stats after the failed attempts `a, a+1, …, a+k-1` have
each been classified once inside the retry loop. -/
def statsFrom (st : ErrorStats) (e : Nat → AnalysisErrorM) (a : Nat) :
    Nat → ErrorStats
  | 0 => st
  | k + 1 => (statsFrom st e a k).update (e (a + k))

/-- The breaker's three states (`'CLOSED'`, `'OPEN'`, `'HALF_OPEN'`
strings in the source). -/
inductive BreakerState where
  | closed
  | opened
  | halfOpen
deriving DecidableEq, Repr

/-- `CircuitBreaker` (lines 377-433): configuration and mutable
state.  `recovery_timeout` is seconds (`time.time()` modelled as
`Int`). -/
structure CircuitBreaker where
  failure_threshold : Nat := 5
  recovery_timeout : Int := 60
  failure_count : Nat := 0
  last_failure_time : Option Int := none
  state : BreakerState := .closed
deriving DecidableEq, Repr

namespace CircuitBreaker

/-- `_should_attempt_reset` (lines 415-420). -/
def should_attempt_reset (cb : CircuitBreaker) (now : Int) : Bool :=
  match cb.last_failure_time with
  | none => false
  | some t => decide (cb.recovery_timeout ≤ now - t)

/-- `_on_success` (lines 422-425). -/
def on_success (cb : CircuitBreaker) : CircuitBreaker :=
  { cb with failure_count := 0, state := .closed }

/-- `_on_failure` (lines 427-433). -/
def on_failure (cb : CircuitBreaker) (now : Int) : CircuitBreaker :=
  let fc := cb.failure_count + 1
  { cb with
    failure_count := fc
    last_failure_time := some now
    state := if cb.failure_threshold ≤ fc then .opened else cb.state }

/-- Observable outcome of one wrapped call: whether the wrapped
function was invoked, whether the call returned normally, and the
breaker afterwards. -/
structure CallResult where
  invoked : Bool
  ok : Bool
  breaker : CircuitBreaker
deriving DecidableEq, Repr

/-- The invoke-and-update tail of the wrapper: run the wrapped
function (outcome `success`), then `_on_success` / `_on_failure`. -/
def run (cb : CircuitBreaker) (now : Int) (success : Bool) : CallResult :=
  if success then ⟨true, true, cb.on_success⟩
  else ⟨true, false, cb.on_failure now⟩

/-- One call through the breaker's `wrapper` (lines 392-413): while
OPEN, either move to HALF_OPEN (timeout elapsed) and call through, or
raise immediately without invoking the wrapped function. -/
def call (cb : CircuitBreaker) (now : Int) (success : Bool) : CallResult :=
  if cb.state = .opened then
    if cb.should_attempt_reset now then
      run { cb with state := .halfOpen } now success
    else ⟨false, false, cb⟩
  else run cb now success

/-- Inductive invariant of reachable breakers: away from CLOSED the
failure counter has reached the threshold, and an OPEN breaker has a
stamped failure time. -/
def Inv (cb : CircuitBreaker) : Prop :=
  ((cb.state = .opened ∨ cb.state = .halfOpen) →
    cb.failure_threshold ≤ cb.failure_count) ∧
  (cb.state = .opened → cb.last_failure_time.isSome)

end CircuitBreaker

/-! ## utils/performance.py : ConcurrentProcessor.process_batch -/

/-- Fuel-indexed helper computing the Python slices
`items[i:i+bs] for i in range(0, len(items), bs)`. -/
def chunksAux {α : Type} (bs : Nat) : Nat → List α → List (List α)
  | 0, _ => []
  | _, [] => []
  | fuel + 1, l => l.take bs :: chunksAux bs fuel (l.drop bs)

/-- The batch split of `process_batch` (lines 156-160). -/
def chunks {α : Type} (bs : Nat) (l : List α) : List (List α) :=
  chunksAux bs l.length l

/-- Result list of `ConcurrentProcessor.process_batch` (lines
132-216): items are processed batch by batch, a raising item's slot
becomes `None` (`f` returns `none`) without aborting its batch, and
`asyncio.gather` keeps batches in submission order, so the flattened
results stay in item order. -/
def process_batch {α β : Type} (items : List α) (f : α → Option β)
    (bs : Nat) : List (Option β) :=
  ((chunks bs items).map (fun b => b.map f)).flatten

/-- Running totals of a list of batch sizes (`completed` after each
batch finishes). -/
def accSums : Nat → List Nat → List Nat
  | _, [] => []
  | acc, x :: xs => (acc + x) :: accSums (acc + x) xs

/-- The `(completed, total)` arguments of the progress callback, given
the batch sizes in the order the batches completed (batches run
concurrently, so any permutation of the split is possible). -/
def progressCalls {α : Type} (items : List α) (sizesInOrder : List Nat) :
    List (Nat × Nat) :=
  (accSums 0 sizesInOrder).map (fun c => (c, items.length))

/-! ## Concrete instances used by counterexamples and witnesses -/

/-- A minimal concrete Site. -/
def exampleSite : SiteM :=
  { base_url := "https://example.com", domain := "example.com" }

/-- Oracles for a crawl of `https://example.com` whose robots.txt
disallows everything: every URL mentioned is valid and on-domain
(matching `validators.url` / `is_same_domain` on those strings), but
`can_fetch` is always false. -/
def denyEnv : UrlEnv :=
  { valid := fun _ => true
    sameDomain := fun _ _ => true
    canFetch := fun _ => false }

/-- Oracles for a fully permissive environment. -/
def permitEnv : UrlEnv :=
  { valid := fun _ => true
    sameDomain := fun _ _ => true
    canFetch := fun _ => true }

/-- A crawler over a freshly constructed Site with the default
configuration (in particular `respect_robots_txt = True`). -/
def crawler0 : CrawlerState :=
  { site := freshSite "https://example.com" "example.com" {} 0 }

/-- The seed page of the demo crawl. -/
def demoSeedPage : PageM := mkPage "https://example.com" 0 none

/-- The child page the demo crawl discovers at depth 1. -/
def demoChildPage : PageM :=
  mkPage "https://example.com/a" 1 (some "https://example.com")

/-- A crawler mid-run: the seed page already discovered, with
`max_depth = 1`. -/
def demoCrawler : CrawlerState :=
  { site := (freshSite "https://example.com" "example.com"
      { max_depth := 1 } 0).add_page demoSeedPage
    discovered_urls := ["https://example.com"] }

/-- The demo fixture server: the homepage links to one child page. -/
def demoLinks : String → List String :=
  fun u => if u = "https://example.com" then ["https://example.com/a"] else []

/-- Observable schedule of the demo crawl: level 0 dispatches and
settles the seed, level 1 the child. -/
def demoBlocks : List (List FetchEvent) :=
  [[.dispatch "https://example.com" 0, .settle "https://example.com" 0],
   [.dispatch "https://example.com/a" 1, .settle "https://example.com/a" 1]]

end GetSiteDNA

namespace GetSiteDNA

/-! ## Theorems for claims C10 and C2 -/

/-- **C10.** `mark_crawled(c, ct)` sets the status to COMPLETED exactly
when `200 ≤ c < 300` and to FAILED otherwise, records the code, the
content type and the crawl timestamp; and `is_successful` holds for a
page iff its status is COMPLETED and its status code is in `[200, 300)`. -/
theorem mark_crawled_two_xx_success (p : PageM) (now code : Int)
    (ct : Option String) :
    ((p.mark_crawled now code ct).status = .completed ↔
      200 ≤ code ∧ code < 300) ∧
    ((p.mark_crawled now code ct).status = .failed ↔
      ¬(200 ≤ code ∧ code < 300)) ∧
    (p.mark_crawled now code ct).status_code = some code ∧
    (p.mark_crawled now code ct).content_type = ct ∧
    (p.mark_crawled now code ct).crawled_at = some now ∧
    (∀ q : PageM, q.is_successful = true ↔
      q.status = .completed ∧
        ∃ c, q.status_code = some c ∧ 200 ≤ c ∧ c < 300) := by
  refine ⟨?_, ?_, rfl, rfl, rfl, ?_⟩
  · simp only [PageM.mark_crawled]
    split <;> simp_all
  · simp only [PageM.mark_crawled]
    split <;> simp_all
  · intro q
    simp only [PageM.is_successful, Bool.and_eq_true, beq_iff_eq,
      decide_eq_true_eq]
    constructor
    · rintro ⟨hs, hc⟩
      refine ⟨hs, ?_⟩
      cases hsc : q.status_code with
      | none => rw [hsc] at hc; simp at hc
      | some c =>
          rw [hsc] at hc
          simp only [Bool.and_eq_true, Bool.not_eq_true', beq_eq_false_iff_ne,
            decide_eq_true_eq] at hc
          exact ⟨c, rfl, hc.1.2, hc.2⟩
    · rintro ⟨hs, c, hsc, h1, h2⟩
      refine ⟨hs, ?_⟩
      rw [hsc]
      simp only [Bool.and_eq_true, Bool.not_eq_true', beq_eq_false_iff_ne,
        decide_eq_true_eq]
      exact ⟨⟨fun h => by omega, h1⟩, h2⟩

/-- **C2 counterexample.** Calling `mark_analysis_complete` a second
time is not a no-op: with the analysis started at time 0, a first call
at time 1 and a second call at time 2, the second call changes
`stats.analysis_duration_seconds` from 1 to 2 — the code re-stamps the
completion time and recomputes the duration on every call. -/
theorem mark_analysis_complete_not_idempotent :
    ((exampleSite.mark_analysis_complete 1).mark_analysis_complete 2).stats ≠
      (exampleSite.mark_analysis_complete 1).stats := by
  decide

/-- **C2 (amended).** A second call to `mark_analysis_complete`
recomputes every count statistic from the unchanged page map, so all
count fields (pages discovered/crawled/analyzed, assets, components,
patterns, crawl duration) are unchanged — nothing is double-counted —
but it re-stamps `analysis_completed_at` and recomputes
`analysis_duration_seconds` from the second call's clock; the whole
`stats` record is unchanged exactly when the second call observes the
same timestamp as the first. -/
theorem mark_analysis_complete_second_call (s : SiteM) (t1 t2 : Int) :
    ((s.mark_analysis_complete t1).mark_analysis_complete t2).stats.total_pages_discovered =
      (s.mark_analysis_complete t1).stats.total_pages_discovered ∧
    ((s.mark_analysis_complete t1).mark_analysis_complete t2).stats.total_pages_crawled =
      (s.mark_analysis_complete t1).stats.total_pages_crawled ∧
    ((s.mark_analysis_complete t1).mark_analysis_complete t2).stats.total_pages_analyzed =
      (s.mark_analysis_complete t1).stats.total_pages_analyzed ∧
    ((s.mark_analysis_complete t1).mark_analysis_complete t2).stats.total_assets_found =
      (s.mark_analysis_complete t1).stats.total_assets_found ∧
    ((s.mark_analysis_complete t1).mark_analysis_complete t2).stats.total_components_identified =
      (s.mark_analysis_complete t1).stats.total_components_identified ∧
    ((s.mark_analysis_complete t1).mark_analysis_complete t2).stats.total_patterns_identified =
      (s.mark_analysis_complete t1).stats.total_patterns_identified ∧
    ((s.mark_analysis_complete t1).mark_analysis_complete t2).stats.crawl_duration_seconds =
      (s.mark_analysis_complete t1).stats.crawl_duration_seconds ∧
    ((s.mark_analysis_complete t1).mark_analysis_complete t2).stats.analysis_duration_seconds =
      some (t2 - s.analysis_started_at) ∧
    (t2 = t1 →
      ((s.mark_analysis_complete t1).mark_analysis_complete t2).stats =
        (s.mark_analysis_complete t1).stats) := by
  refine ⟨rfl, rfl, rfl, rfl, rfl, rfl, rfl, rfl, ?_⟩
  rintro rfl
  rfl

/-- Witness for the amended C2 theorem at a concrete site and a
concrete repeated timestamp. -/
theorem mark_analysis_complete_second_call_witness :
    ((exampleSite.mark_analysis_complete 1).mark_analysis_complete 1).stats =
      (exampleSite.mark_analysis_complete 1).stats :=
  (mark_analysis_complete_second_call exampleSite 1 1).2.2.2.2.2.2.2.2 rfl

/-! ## Theorem for claim C7 -/

/-- **C7.** `should_continue(e)` returns false exactly when `e` is
critical, or the running high-severity count exceeds 10, or the total
error count exceeds 100; in all other cases it returns true.  In
particular a handler with 101 recorded errors refuses to continue on a
medium error, while one with 5 recorded errors continues. -/
theorem should_continue_policy (st : ErrorStats) (e : AnalysisErrorM) :
    (ErrorHandler.should_continue st e = false ↔
      (e.severity = .critical ∨
        10 < countGet ErrorSeverity.high st.by_severity ∨
        100 < st.total_errors)) ∧
    ErrorHandler.should_continue
      { total_errors := 101, by_severity := [(ErrorSeverity.medium, 101)] }
      { message := "x", severity := .medium } = false ∧
    ErrorHandler.should_continue
      { total_errors := 5, by_severity := [(ErrorSeverity.medium, 5)] }
      { message := "x", severity := .medium } = true := by
  refine ⟨?_, by decide, by decide⟩
  unfold ErrorHandler.should_continue
  split_ifs with h1 h2 h3 <;> simp_all

/-! ## Theorem for claim C8 -/

/-- **C8.** With jitter disabled the delay for 0-indexed attempt `n` is
exactly `min(maxDelay, baseDelay * multiplier^n)`; with
`baseDelay = 1, multiplier = 2, maxDelay = 60` the delays for attempts
0, 1, 2 are 1, 2, 4 and attempt 10 is clamped to 60; with jitter
enabled (uniform draw `rand ∈ [0,1)`) the delay lies between 50% and
100% of that computed delay. -/
theorem calculate_delay_backoff :
    (∀ (config : RetryConfig) (n : Nat) (rand : ℚ), config.jitter = false →
      calculate_delay n config rand =
        min config.max_delay (config.base_delay * config.exponential_base ^ n)) ∧
    (calculate_delay 0
        { base_delay := 1, exponential_base := 2, max_delay := 60,
          jitter := false } 0 = 1 ∧
      calculate_delay 1
        { base_delay := 1, exponential_base := 2, max_delay := 60,
          jitter := false } 0 = 2 ∧
      calculate_delay 2
        { base_delay := 1, exponential_base := 2, max_delay := 60,
          jitter := false } 0 = 4 ∧
      calculate_delay 10
        { base_delay := 1, exponential_base := 2, max_delay := 60,
          jitter := false } 0 = 60) ∧
    (∀ (config : RetryConfig) (n : Nat) (rand : ℚ), config.jitter = true →
      0 ≤ config.base_delay → 0 ≤ config.exponential_base →
      0 ≤ config.max_delay → 0 ≤ rand → rand < 1 →
      min config.max_delay (config.base_delay * config.exponential_base ^ n) / 2 ≤
          calculate_delay n config rand ∧
        calculate_delay n config rand ≤
          min config.max_delay (config.base_delay * config.exponential_base ^ n)) := by
  refine ⟨?_, ⟨?_, ?_, ?_, ?_⟩, ?_⟩
  · intro config n rand hj
    simp [calculate_delay, hj, min_comm]
  · norm_num [calculate_delay, min_def]
  · norm_num [calculate_delay, min_def]
  · norm_num [calculate_delay, min_def]
  · norm_num [calculate_delay, min_def]
  · intro config n rand hj hb hm hM hr0 hr1
    have hd : (0 : ℚ) ≤ config.base_delay * config.exponential_base ^ n :=
      mul_nonneg hb (pow_nonneg hm n)
    rw [min_comm]
    simp only [calculate_delay, hj, if_true]
    set d := min (config.base_delay * config.exponential_base ^ n)
      config.max_delay with hdset
    have hd0 : 0 ≤ d := le_min hd hM
    constructor
    · nlinarith [hd0, hr0]
    · nlinarith [hd0, hr1]

/-- Witness for C8 at the jitter-enabled configuration
`baseDelay = 1, multiplier = 2, maxDelay = 60` with `rand = 0`. -/
theorem calculate_delay_backoff_witness :
    calculate_delay 3
        { base_delay := 1, exponential_base := 2, max_delay := 60,
          jitter := false } 0 = min 60 (1 * 2 ^ 3) ∧
    (min (60 : ℚ) (1 * 2 ^ 0) / 2 ≤
        calculate_delay 0
          { base_delay := 1, exponential_base := 2, max_delay := 60,
            jitter := true } 0 ∧
      calculate_delay 0
          { base_delay := 1, exponential_base := 2, max_delay := 60,
            jitter := true } 0 ≤ min (60 : ℚ) (1 * 2 ^ 0)) :=
  ⟨calculate_delay_backoff.1
      { base_delay := 1, exponential_base := 2, max_delay := 60,
        jitter := false } 3 0 rfl,
    calculate_delay_backoff.2.2
      { base_delay := 1, exponential_base := 2, max_delay := 60,
        jitter := true } 0 0 rfl (by norm_num) (by norm_num)
      (by norm_num) (by norm_num) (by norm_num)⟩

/-! ## Theorems for claim C1 -/

lemma any_dictInsert (k : String) (v : PageM) (l : List (String × PageM)) :
    (dictInsert k v l).any (fun kv => kv.1 == k) = true := by
  induction l with
  | nil => simp [dictInsert]
  | cons hd tl ih =>
      obtain ⟨k', v'⟩ := hd
      by_cases h : k' = k
      · simp [dictInsert, h]
      · simp [dictInsert, h, ih]

lemma has_page_add_page (s : SiteM) (p : PageM) :
    (s.add_page p).has_page p.url = true := by
  simp only [SiteM.add_page, SiteM.has_page]
  exact any_dictInsert p.url p s.pages

set_option maxHeartbeats 2000000 in
/-- **C1 counterexample.** The claim fails for the dynamic fetch
strategy: with a default configuration (`respect_robots_txt = True`)
and an environment whose robots checker forbids fetching everything,
`DynamicCrawler._add_discovered_url` still admits a fresh valid
same-domain in-budget URL — condition (e) is never consulted (the
static strategy rejects the same call). -/
theorem dynamic_discovery_skips_robots_check :
    denyEnv.valid (normalize_url "https://example.com/private") = true ∧
    denyEnv.sameDomain (normalize_url "https://example.com/private")
      crawler0.site.base_url = true ∧
    1 ≤ crawler0.site.config.max_depth ∧
    crawler0.discovered_urls.length < crawler0.site.config.max_pages ∧
    crawler0.site.config.respect_robots_txt = true ∧
    denyEnv.canFetch (normalize_url "https://example.com/private") = false ∧
    crawler0.site.pages.length = 0 ∧
    (DynamicCrawler.add_discovered_url denyEnv crawler0
        "https://example.com/private" 1 none).site.has_page
      (normalize_url "https://example.com/private") = true ∧
    (DynamicCrawler.add_discovered_url denyEnv crawler0
        "https://example.com/private" 1 none).discovered_urls.length = 1 ∧
    StaticCrawler.add_discovered_url denyEnv crawler0
      "https://example.com/private" 1 none = crawler0 := by
  decide

/-- **C1 (amended).** For a fresh URL `u` (its normalization not yet
discovered), the static strategy's discovery admits `u` if and only if
the normalized URL is valid, on-domain, within the depth budget,
within the page budget, and — when robots compliance is enabled —
permitted by the robots checker; the dynamic strategy's discovery
checks only the first four conditions and never consults the robots
checker.  In both strategies an admitted URL's Page is present in the
Site's page mapping afterwards. -/
theorem add_discovered_url_admission (env : UrlEnv) (st : CrawlerState)
    (u : String) (d : Nat) (par : Option String)
    (hfresh : st.discovered_urls.contains (normalize_url u) = false) :
    ((StaticCrawler.add_discovered_url env st u d par).discovered_urls.contains
        (normalize_url u) = true ↔
      (env.valid (normalize_url u) = true ∧
        env.sameDomain (normalize_url u) st.site.base_url = true ∧
        d ≤ st.site.config.max_depth ∧
        st.discovered_urls.length < st.site.config.max_pages ∧
        (st.site.config.respect_robots_txt = true →
          env.canFetch (normalize_url u) = true))) ∧
    ((DynamicCrawler.add_discovered_url env st u d par).discovered_urls.contains
        (normalize_url u) = true ↔
      (env.valid (normalize_url u) = true ∧
        env.sameDomain (normalize_url u) st.site.base_url = true ∧
        d ≤ st.site.config.max_depth ∧
        st.discovered_urls.length < st.site.config.max_pages)) ∧
    ((StaticCrawler.add_discovered_url env st u d par).discovered_urls.contains
        (normalize_url u) = true →
      (StaticCrawler.add_discovered_url env st u d par).site.has_page
        (normalize_url u) = true) ∧
    ((DynamicCrawler.add_discovered_url env st u d par).discovered_urls.contains
        (normalize_url u) = true →
      (DynamicCrawler.add_discovered_url env st u d par).site.has_page
        (normalize_url u) = true) := by
  refine ⟨?_, ?_, ?_, ?_⟩
  · simp only [StaticCrawler.add_discovered_url]
    split_ifs with h1 h2 h3 h4 h5 h6 <;> simp_all
  · simp only [DynamicCrawler.add_discovered_url]
    split_ifs with h1 h2 h3 h4 h5 <;> simp_all
  · simp only [StaticCrawler.add_discovered_url]
    split_ifs with h1 h2 h3 h4 h5 h6 <;> intro hadm <;> simp_all
    exact has_page_add_page st.site (mkPage (normalize_url u) d par)
  · simp only [DynamicCrawler.add_discovered_url]
    split_ifs with h1 h2 h3 h4 h5 h6 <;> intro hadm <;> simp_all
    exact has_page_add_page st.site (mkPage (normalize_url u) d par)

/-- Witness for the amended C1 theorem: admitting the seed URL of a
fresh crawl through the static strategy in a permissive environment. -/
theorem add_discovered_url_admission_witness :
    (StaticCrawler.add_discovered_url permitEnv crawler0
        "https://example.com" 0 none).discovered_urls.contains
      (normalize_url "https://example.com") = true ∧
    (StaticCrawler.add_discovered_url permitEnv crawler0
        "https://example.com" 0 none).site.has_page
      (normalize_url "https://example.com") = true := by
  have h := add_discovered_url_admission permitEnv crawler0
    "https://example.com" 0 none (by decide)
  have hadm := h.1.mpr ⟨rfl, rfl, by decide, by decide, fun _ => rfl⟩
  exact ⟨hadm, h.2.2.1 hadm⟩

/-! ## Theorems for claim C3 -/

lemma dictInsert_length_le (k : String) (v : PageM)
    (l : List (String × PageM)) :
    (dictInsert k v l).length ≤ l.length + 1 := by
  induction l with
  | nil => simp [dictInsert]
  | cons hd tl ih =>
      obtain ⟨k', v'⟩ := hd
      by_cases h : k' = k
      · simp [dictInsert, h]
      · simp only [dictInsert, h, if_false, List.length_cons]
        omega

lemma mem_dictInsert (k : String) (v : PageM) (l : List (String × PageM))
    (kv : String × PageM) (h : kv ∈ dictInsert k v l) :
    kv = (k, v) ∨ kv ∈ l := by
  induction l with
  | nil => simpa [dictInsert] using h
  | cons hd tl ih =>
      obtain ⟨k', v'⟩ := hd
      by_cases hk : k' = k
      · simp only [dictInsert, hk, if_true, List.mem_cons] at h
        rcases h with h | h
        · exact Or.inl h
        · exact Or.inr (List.mem_cons_of_mem _ h)
      · simp only [dictInsert, hk, if_false, List.mem_cons] at h
        rcases h with h | h
        · exact Or.inr (h ▸ List.mem_cons_self _ _)
        · rcases ih h with h2 | h2
          · exact Or.inl h2
          · exact Or.inr (List.mem_cons_of_mem _ h2)

lemma add_page_config (s : SiteM) (p : PageM) :
    (s.add_page p).config = s.config := rfl

lemma add_page_pages (s : SiteM) (p : PageM) :
    (s.add_page p).pages = dictInsert p.url p s.pages := rfl

lemma mkPage_url (u : String) (d : Nat) (par : Option String) :
    (mkPage u d par).url = u := rfl

lemma mkPage_depth (u : String) (d : Nat) (par : Option String) :
    (mkPage u d par).depth = d := rfl

lemma static_add_preserves_inv (env : UrlEnv) (st : CrawlerState)
    (u : String) (d : Nat) (par : Option String) (h : CrawlInv st) :
    CrawlInv (StaticCrawler.add_discovered_url env st u d par) := by
  simp only [StaticCrawler.add_discovered_url]
  split_ifs with g1 g2 g3 g4 g5 g6
  any_goals exact h
  obtain ⟨h1, h2, h3⟩ := h
  refine ⟨?_, ?_, ?_⟩
  · simp only [add_page_pages, mkPage_url, List.length_append,
      List.length_cons, List.length_nil]
    have := dictInsert_length_le (normalize_url u)
      (mkPage (normalize_url u) d par) st.site.pages
    omega
  · simp only [add_page_config, List.length_append, List.length_cons,
      List.length_nil]
    omega
  · intro kv hkv
    simp only [add_page_pages, add_page_config] at hkv ⊢
    rcases mem_dictInsert _ _ _ kv hkv with hmem | hmem
    · subst hmem
      simpa [mkPage_depth] using Nat.le_of_not_lt g4
    · exact h3 kv hmem

lemma dynamic_add_preserves_inv (env : UrlEnv) (st : CrawlerState)
    (u : String) (d : Nat) (par : Option String) (h : CrawlInv st) :
    CrawlInv (DynamicCrawler.add_discovered_url env st u d par) := by
  simp only [DynamicCrawler.add_discovered_url]
  split_ifs with g1 g2 g3 g4 g5 g6
  any_goals exact h
  all_goals obtain ⟨h1, h2, h3⟩ := h
  · -- the Site already holds the page: only the discovered set grows
    refine ⟨?_, ?_, h3⟩
    · simp only [List.length_append, List.length_cons, List.length_nil]
      omega
    · simp only [List.length_append, List.length_cons, List.length_nil]
      omega
  · -- fresh page inserted
    refine ⟨?_, ?_, ?_⟩
    · simp only [add_page_pages, mkPage_url, List.length_append,
        List.length_cons, List.length_nil]
      have := dictInsert_length_le (normalize_url u)
        (mkPage (normalize_url u) d par) st.site.pages
      omega
    · simp only [add_page_config, List.length_append, List.length_cons,
        List.length_nil]
      omega
    · intro kv hkv
      simp only [add_page_pages, add_page_config] at hkv ⊢
      rcases mem_dictInsert _ _ _ kv hkv with hmem | hmem
      · subst hmem
        simpa [mkPage_depth] using Nat.le_of_not_lt g4
      · exact h3 kv hmem

lemma runStatic_preserves_inv (env : UrlEnv) (calls : List AddCall) :
    ∀ st : CrawlerState, CrawlInv st → CrawlInv (runStatic env st calls) := by
  induction calls with
  | nil => intro st h; exact h
  | cons c rest ih =>
      intro st h
      exact ih _ (static_add_preserves_inv env st c.url c.depth c.parent_url h)

lemma runDynamic_preserves_inv (env : UrlEnv) (calls : List AddCall) :
    ∀ st : CrawlerState, CrawlInv st → CrawlInv (runDynamic env st calls) := by
  induction calls with
  | nil => intro st h; exact h
  | cons c rest ih =>
      intro st h
      exact ih _ (dynamic_add_preserves_inv env st c.url c.depth c.parent_url h)

lemma freshCrawler_inv (base domain : String) (cfg : CrawlConfig) (t0 : Int) :
    CrawlInv { site := freshSite base domain cfg t0 } := by
  refine ⟨Nat.le_refl 0, Nat.zero_le _, ?_⟩
  intro kv hkv
  simp [freshSite] at hkv

/-- **C3.** Both strategies' discovery operations preserve the crawl
invariant (page map keyed inside the discovered set, discovered set
within `max_pages`, all stored depths within `max_depth`); the
invariant implies the two budget bounds of the claim; and every state
reached from a freshly-constructed Site by any sequence of discovery
calls — in either strategy — satisfies the budget bounds. -/
theorem crawl_budget_invariants :
    (∀ (env : UrlEnv) (st : CrawlerState) (u : String) (d : Nat)
        (par : Option String), CrawlInv st →
      CrawlInv (StaticCrawler.add_discovered_url env st u d par) ∧
        CrawlInv (DynamicCrawler.add_discovered_url env st u d par)) ∧
    (∀ st : CrawlerState, CrawlInv st → BudgetInv st) ∧
    (∀ (env : UrlEnv) (base domain : String) (cfg : CrawlConfig) (t0 : Int)
        (calls : List AddCall),
      BudgetInv (runStatic env { site := freshSite base domain cfg t0 } calls) ∧
        BudgetInv (runDynamic env { site := freshSite base domain cfg t0 } calls)) := by
  have hfrom : ∀ st : CrawlerState, CrawlInv st → BudgetInv st := by
    intro st h
    exact ⟨le_trans h.1 h.2.1, h.2.2⟩
  refine ⟨?_, hfrom, ?_⟩
  · intro env st u d par h
    exact ⟨static_add_preserves_inv env st u d par h,
      dynamic_add_preserves_inv env st u d par h⟩
  · intro env base domain cfg t0 calls
    exact ⟨hfrom _ (runStatic_preserves_inv env calls _
        (freshCrawler_inv base domain cfg t0)),
      hfrom _ (runDynamic_preserves_inv env calls _
        (freshCrawler_inv base domain cfg t0))⟩

/-- Witness for C3: the invariant-preservation part applied to a
concrete crawler state, and the reachable-state part applied to a
concrete two-call crawl history. -/
theorem crawl_budget_invariants_witness :
    CrawlInv (StaticCrawler.add_discovered_url permitEnv crawler0
      "https://example.com" 0 none) ∧
    BudgetInv (runStatic permitEnv
      { site := freshSite "https://example.com" "example.com" {} 0 }
      [⟨"https://example.com", 0, none⟩,
       ⟨"https://example.com/a", 1, some "https://example.com"⟩]) :=
  ⟨(crawl_budget_invariants.1 permitEnv crawler0 "https://example.com" 0 none
      ⟨Nat.le_refl 0, Nat.zero_le _, by intro kv hkv; simp [crawler0, freshSite] at hkv⟩).1,
    (crawl_budget_invariants.2.2 permitEnv "https://example.com" "example.com"
      {} 0 [⟨"https://example.com", 0, none⟩,
        ⟨"https://example.com/a", 1, some "https://example.com"⟩]).1⟩

/-! ## Theorems for claim C5 -/

lemma breaker_call_not_opened (cb : CircuitBreaker) (now : Int) (s : Bool)
    (h : ¬ cb.state = .opened) : cb.call now s = cb.run now s := by
  simp only [CircuitBreaker.call, if_neg h]

lemma breaker_call_opened_blocked (cb : CircuitBreaker) (now t : Int)
    (s : Bool) (hst : cb.state = .opened)
    (hlast : cb.last_failure_time = some t)
    (hlt : now - t < cb.recovery_timeout) :
    cb.call now s = ⟨false, false, cb⟩ := by
  have hr : cb.should_attempt_reset now = false := by
    simp only [CircuitBreaker.should_attempt_reset, hlast]
    exact decide_eq_false (by omega)
  simp [CircuitBreaker.call, hst, hr]

lemma breaker_call_opened_elapsed (cb : CircuitBreaker) (now t : Int)
    (s : Bool) (hst : cb.state = .opened)
    (hlast : cb.last_failure_time = some t)
    (hge : cb.recovery_timeout ≤ now - t) :
    cb.call now s = CircuitBreaker.run { cb with state := .halfOpen } now s := by
  have hr : cb.should_attempt_reset now = true := by
    simp only [CircuitBreaker.should_attempt_reset, hlast]
    exact decide_eq_true hge
  simp [CircuitBreaker.call, hst, hr]

lemma breaker_run_true (cb : CircuitBreaker) (now : Int) :
    cb.run now true = ⟨true, true, cb.on_success⟩ := rfl

lemma breaker_run_false (cb : CircuitBreaker) (now : Int) :
    cb.run now false = ⟨true, false, cb.on_failure now⟩ := rfl

lemma breaker_on_failure_state (cb : CircuitBreaker) (now : Int) :
    (cb.on_failure now).state =
      if cb.failure_threshold ≤ cb.failure_count + 1 then .opened
      else cb.state := rfl

/-- **C5.** The circuit breaker state machine: a new breaker starts
CLOSED with a zero counter; each invoked failure increments the
counter, stamps the failure time, and reaching `failure_threshold`
opens the breaker; while OPEN and within `recovery_timeout` of the
last failure every call fails fast without invoking the wrapped
function and without changing state; the first call after the timeout
elapses is let through (via HALF_OPEN) — success resets the counter to
0 and closes the breaker, failure reopens it immediately, as does any
failure in HALF_OPEN; and the reachability invariant is preserved by
every call. -/
theorem circuit_breaker_state_machine :
    (∀ (th : Nat) (rt : Int),
      ({ failure_threshold := th, recovery_timeout := rt } :
          CircuitBreaker).state = .closed ∧
      ({ failure_threshold := th, recovery_timeout := rt } :
          CircuitBreaker).failure_count = 0 ∧
      CircuitBreaker.Inv { failure_threshold := th, recovery_timeout := rt }) ∧
    (∀ (cb : CircuitBreaker) (now : Int), cb.state = .closed →
      (cb.call now false).invoked = true ∧
      (cb.call now false).breaker.failure_count = cb.failure_count + 1 ∧
      (cb.call now false).breaker.last_failure_time = some now ∧
      ((cb.call now false).breaker.state = .opened ↔
        cb.failure_threshold ≤ cb.failure_count + 1)) ∧
    (∀ (cb : CircuitBreaker) (now t : Int) (success : Bool),
      cb.state = .opened → cb.last_failure_time = some t →
      now - t < cb.recovery_timeout →
      cb.call now success = ⟨false, false, cb⟩) ∧
    (∀ (cb : CircuitBreaker) (now t : Int) (success : Bool),
      cb.state = .opened → cb.last_failure_time = some t →
      cb.recovery_timeout ≤ now - t →
      (cb.call now success).invoked = true ∧
      (success = true → (cb.call now success).breaker.state = .closed ∧
        (cb.call now success).breaker.failure_count = 0) ∧
      (success = false → CircuitBreaker.Inv cb →
        (cb.call now success).breaker.state = .opened)) ∧
    (∀ (cb : CircuitBreaker) (now : Int), (cb.call now true).invoked = true →
      (cb.call now true).breaker.failure_count = 0 ∧
      (cb.call now true).breaker.state = .closed) ∧
    (∀ (cb : CircuitBreaker) (now : Int), cb.state = .halfOpen →
      CircuitBreaker.Inv cb → (cb.call now false).breaker.state = .opened) ∧
    (∀ (cb : CircuitBreaker) (now : Int) (success : Bool),
      CircuitBreaker.Inv cb → CircuitBreaker.Inv (cb.call now success).breaker) := by
  refine ⟨?_, ?_, ?_, ?_, ?_, ?_, ?_⟩
  · intro th rt
    refine ⟨rfl, rfl, ?_, ?_⟩ <;> intro h <;> simp_all [CircuitBreaker.Inv]
  · intro cb now hc
    rw [breaker_call_not_opened cb now false (by simp [hc]), breaker_run_false]
    refine ⟨rfl, rfl, rfl, ?_⟩
    rw [show (⟨true, false, cb.on_failure now⟩ :
        CircuitBreaker.CallResult).breaker = cb.on_failure now from rfl,
      breaker_on_failure_state, hc]
    split_ifs with h
    · simp [h]
    · simp [h]
  · intro cb now t success hst hlast hlt
    exact breaker_call_opened_blocked cb now t success hst hlast hlt
  · intro cb now t success hst hlast hge
    rw [breaker_call_opened_elapsed cb now t success hst hlast hge]
    cases success with
    | true =>
        rw [breaker_run_true]
        exact ⟨rfl, fun _ => ⟨rfl, rfl⟩, by intro h; simp at h⟩
    | false =>
        rw [breaker_run_false]
        refine ⟨rfl, by intro h; simp at h, ?_⟩
        intro _ hinv
        have hth := hinv.1 (Or.inl hst)
        rw [show (⟨true, false, CircuitBreaker.on_failure
            { cb with state := .halfOpen } now⟩ :
            CircuitBreaker.CallResult).breaker =
          CircuitBreaker.on_failure { cb with state := .halfOpen } now from rfl,
          breaker_on_failure_state]
        rw [if_pos (Nat.le_succ_of_le hth)]
  · intro cb now
    by_cases hst : cb.state = .opened
    · cases hlt : cb.last_failure_time with
      | none =>
          intro hinv
          have hcb : cb.call now true = ⟨false, false, cb⟩ := by
            have hr : cb.should_attempt_reset now = false := by
              simp [CircuitBreaker.should_attempt_reset, hlt]
            simp [CircuitBreaker.call, hst, hr]
          rw [hcb] at hinv
          simp at hinv
      | some t =>
          by_cases hge : cb.recovery_timeout ≤ now - t
          · intro _
            rw [breaker_call_opened_elapsed cb now t true hst hlt hge,
              breaker_run_true]
            exact ⟨rfl, rfl⟩
          · intro hinv
            rw [breaker_call_opened_blocked cb now t true hst hlt
              (by omega)] at hinv
            simp at hinv
    · intro _
      rw [breaker_call_not_opened cb now true hst, breaker_run_true]
      exact ⟨rfl, rfl⟩
  · intro cb now hst hinv
    have hth := hinv.1 (Or.inr hst)
    rw [breaker_call_not_opened cb now false (by simp [hst]),
      breaker_run_false]
    rw [show (⟨true, false, cb.on_failure now⟩ :
        CircuitBreaker.CallResult).breaker = cb.on_failure now from rfl,
      breaker_on_failure_state]
    rw [if_pos (by omega)]
  · intro cb now success hinv
    obtain ⟨h1, h2⟩ := hinv
    by_cases hst : cb.state = .opened
    · cases hlt : cb.last_failure_time with
      | none =>
          have := h2 hst
          rw [hlt] at this
          simp at this
      | some t =>
          by_cases hge : cb.recovery_timeout ≤ now - t
          · rw [breaker_call_opened_elapsed cb now t success hst hlt hge]
            cases success with
            | true =>
                rw [breaker_run_true]
                refine ⟨?_, ?_⟩ <;> intro hx <;>
                  simp_all [CircuitBreaker.on_success, CircuitBreaker.Inv]
            | false =>
                rw [breaker_run_false]
                have hth := h1 (Or.inl hst)
                exact ⟨fun _ => Nat.le_succ_of_le hth, fun _ => rfl⟩
          · rw [breaker_call_opened_blocked cb now t success hst hlt
              (by omega)]
            exact ⟨h1, h2⟩
    · rw [breaker_call_not_opened cb now success hst]
      cases success with
      | true =>
          rw [breaker_run_true]
          refine ⟨?_, ?_⟩ <;> intro hx <;>
            simp_all [CircuitBreaker.on_success, CircuitBreaker.Inv]
      | false =>
          rw [breaker_run_false]
          refine ⟨?_, ?_⟩ <;> intro hx
          · by_cases hth : cb.failure_threshold ≤ cb.failure_count + 1
            · exact hth
            · rw [show (⟨true, false, cb.on_failure now⟩ :
                  CircuitBreaker.CallResult).breaker =
                cb.on_failure now from rfl, breaker_on_failure_state,
                if_neg hth] at hx
              exact Nat.le_succ_of_le (h1 hx)
          · rfl

/-- Witness for C5: with `failureThreshold = 2`, a second failure in
CLOSED opens the breaker; a call 5 seconds after the failure (timeout
10) fails fast without invoking; a call 15 seconds after goes through
and a success recloses with a zero counter. -/
theorem circuit_breaker_state_machine_witness :
    (CircuitBreaker.call
      { failure_threshold := 2, recovery_timeout := 10, failure_count := 1,
        last_failure_time := some 0, state := .closed } 1 false).breaker.state =
        .opened ∧
    CircuitBreaker.call
      { failure_threshold := 2, recovery_timeout := 10, failure_count := 2,
        last_failure_time := some 1, state := .opened } 6 false =
      ⟨false, false,
        { failure_threshold := 2, recovery_timeout := 10, failure_count := 2,
          last_failure_time := some 1, state := .opened }⟩ ∧
    (CircuitBreaker.call
      { failure_threshold := 2, recovery_timeout := 10, failure_count := 2,
        last_failure_time := some 1, state := .opened } 16 true).invoked = true ∧
    (CircuitBreaker.call
      { failure_threshold := 2, recovery_timeout := 10, failure_count := 2,
        last_failure_time := some 1, state := .opened } 16 true).breaker.state =
      .closed ∧
    (CircuitBreaker.call
      { failure_threshold := 2, recovery_timeout := 10, failure_count := 2,
        last_failure_time := some 1, state := .opened } 16 true).breaker.failure_count =
      0 := by
  have h2 := circuit_breaker_state_machine.2.1
    { failure_threshold := 2, recovery_timeout := 10, failure_count := 1,
      last_failure_time := some 0, state := .closed } 1 rfl
  have h3 := circuit_breaker_state_machine.2.2.1
    { failure_threshold := 2, recovery_timeout := 10, failure_count := 2,
      last_failure_time := some 1, state := .opened } 6 1 false rfl rfl
    (by norm_num)
  have h4 := circuit_breaker_state_machine.2.2.2.1
    { failure_threshold := 2, recovery_timeout := 10, failure_count := 2,
      last_failure_time := some 1, state := .opened } 16 1 true rfl rfl
    (by norm_num)
  exact ⟨h2.2.2.2.mpr (by norm_num), h3, h4.1, (h4.2.1 rfl).1, (h4.2.1 rfl).2⟩

/-! ## Theorems for claim C6 -/

lemma chunksAux_flatten {α : Type} (bs : Nat) (hbs : 1 ≤ bs) :
    ∀ (fuel : Nat) (l : List α), l.length ≤ fuel →
      (chunksAux bs fuel l).flatten = l := by
  intro fuel
  induction fuel with
  | zero =>
      intro l hl
      have : l = [] := List.length_eq_zero.mp (Nat.le_zero.mp hl)
      subst this
      rfl
  | succ n ih =>
      intro l hl
      cases l with
      | nil => rfl
      | cons x xs =>
          simp only [chunksAux, List.flatten_cons]
          rw [ih (List.drop bs (x :: xs)) ?_, List.take_append_drop]
          simp only [List.length_drop, List.length_cons] at *
          omega

lemma chunks_flatten {α : Type} (bs : Nat) (hbs : 1 ≤ bs) (l : List α) :
    (chunks bs l).flatten = l :=
  chunksAux_flatten bs hbs l.length l (Nat.le_refl _)

lemma process_batch_eq_map {α β : Type} (items : List α) (f : α → Option β)
    (bs : Nat) (hbs : 1 ≤ bs) : process_batch items f bs = items.map f := by
  unfold process_batch
  rw [← List.map_flatten, chunks_flatten bs hbs]

lemma chunks_sizes_sum {α : Type} (bs : Nat) (hbs : 1 ≤ bs) (l : List α) :
    ((chunks bs l).map List.length).sum = l.length := by
  rw [← List.length_flatten, chunks_flatten bs hbs]

lemma accSums_head_ge (acc : Nat) (xs : List Nat) :
    ∀ y ∈ (accSums acc xs).head?, acc ≤ y := by
  cases xs with
  | nil => intro y hy; simp [accSums] at hy
  | cons x rest =>
      intro y hy
      simp only [accSums, List.head?_cons, Option.mem_def,
        Option.some.injEq] at hy
      omega

lemma accSums_chain (acc : Nat) (xs : List Nat) :
    List.Chain' (fun a b => a ≤ b) (accSums acc xs) := by
  induction xs generalizing acc with
  | nil => simp [accSums]
  | cons x rest ih =>
      simp only [accSums]
      refine List.chain'_cons'.mpr ⟨?_, ih (acc + x)⟩
      intro y hy
      have := accSums_head_ge (acc + x) rest y hy
      omega

lemma accSums_mem_le (acc : Nat) (xs : List Nat) :
    ∀ c ∈ accSums acc xs, c ≤ acc + xs.sum := by
  induction xs generalizing acc with
  | nil => intro c hc; simp [accSums] at hc
  | cons x rest ih =>
      intro c hc
      simp only [accSums, List.mem_cons] at hc
      rcases hc with hc | hc
      · subst hc
        simp only [List.sum_cons]
        omega
      · have := ih (acc + x) c hc
        simp only [List.sum_cons]
        omega

lemma accSums_getLast (acc : Nat) (xs : List Nat) (h : xs ≠ []) :
    (accSums acc xs).getLast? = some (acc + xs.sum) := by
  induction xs generalizing acc with
  | nil => exact absurd rfl h
  | cons x rest ih =>
      cases rest with
      | nil => simp [accSums]
      | cons y ys =>
          simp only [accSums]
          rw [List.getLast?_cons_cons]
          have := ih (acc + x) (by simp)
          simp only [accSums] at this
          rw [this]
          simp only [List.sum_cons]
          congr 1
          omega

/-- **C6.** With a positive batch size, `process_batch` over `n` items
returns exactly `items.map f` — an `n`-slot list in item order whose
slot is `none` exactly for the items whose processing raised, so a
raising item aborts neither its siblings nor other batches; and for
any completion order of the batches (any permutation of the batch
sizes), the progress callback values are monotonically increasing,
never exceed `total = n`, always carry `total = n`, and the last call
reports `completed = n`. -/
theorem process_batch_isolation {α β : Type} (items : List α)
    (f : α → Option β) (bs : Nat) (sizesInOrder : List Nat) (hbs : 1 ≤ bs)
    (hperm : sizesInOrder.Perm ((chunks bs items).map List.length)) :
    process_batch items f bs = items.map f ∧
    (process_batch items f bs).length = items.length ∧
    List.Chain' (fun a b => a ≤ b)
      ((progressCalls items sizesInOrder).map Prod.fst) ∧
    (∀ c ∈ progressCalls items sizesInOrder,
      c.1 ≤ items.length ∧ c.2 = items.length) ∧
    (sizesInOrder ≠ [] →
      (progressCalls items sizesInOrder).getLast? =
        some (items.length, items.length)) := by
  have hsum : sizesInOrder.sum = items.length := by
    rw [hperm.sum_eq, chunks_sizes_sum bs hbs]
  refine ⟨process_batch_eq_map items f bs hbs, ?_, ?_, ?_, ?_⟩
  · rw [process_batch_eq_map items f bs hbs, List.length_map]
  · unfold progressCalls
    rw [List.map_map]
    have hc : (Prod.fst ∘ fun c : Nat => (c, items.length)) = id := rfl
    rw [hc, List.map_id]
    exact accSums_chain 0 sizesInOrder
  · intro c hc
    unfold progressCalls at hc
    rw [List.mem_map] at hc
    obtain ⟨a, ha, rfl⟩ := hc
    have := accSums_mem_le 0 sizesInOrder a ha
    exact ⟨by omega, rfl⟩
  · intro hne
    unfold progressCalls
    rw [List.getLast?_map, accSums_getLast 0 sizesInOrder hne]
    simp [hsum]

/-- Witness for C6: five items where item 3 (0-indexed) raises, batch
size 2, batches completing in submission order. -/
theorem process_batch_isolation_witness :
    process_batch [0, 1, 2, 3, 4] (fun i => if i = 3 then none else some i) 2 =
      [some 0, some 1, some 2, none, some 4] ∧
    progressCalls ([0, 1, 2, 3, 4] : List Nat) [2, 2, 1] =
      [(2, 5), (4, 5), (5, 5)] ∧
    (progressCalls ([0, 1, 2, 3, 4] : List Nat) [2, 2, 1]).getLast? =
      some (5, 5) := by
  have h := process_batch_isolation [0, 1, 2, 3, 4]
    (fun i => if i = 3 then none else some i) 2 [2, 2, 1]
    (by decide) (by decide)
  refine ⟨h.1.trans (by decide), by decide, ?_⟩
  have h5 := h.2.2.2.2 (by decide)
  simpa using h5

/-! ## Theorems for claim C9 -/

lemma statsFrom_shift (st : ErrorStats) (e : Nat → AnalysisErrorM) (a : Nat) :
    ∀ m, statsFrom st e a (m + 1) = statsFrom (st.update (e a)) e (a + 1) m := by
  intro m
  induction m with
  | zero => rfl
  | succ k ih =>
      show (statsFrom st e a (k + 1)).update (e (a + (k + 1))) =
        (statsFrom (st.update (e a)) e (a + 1) k).update (e (a + 1 + k))
      rw [ih, show a + (k + 1) = a + 1 + k from by omega]

lemma retryAux_all_fail {α : Type} (f : Nat → Except AnalysisErrorM α)
    (e : Nat → AnalysisErrorM) :
    ∀ (rem a : Nat) (st : ErrorStats) (last : Option AnalysisErrorM),
      1 ≤ rem →
      (∀ i, a ≤ i → i < a + rem → f i = .error (e i)) →
      ∃ k, a ≤ k ∧ k < a + rem ∧
        (retryAux f a rem st last).1 = .error (some (e k)) ∧
        (retryAux f a rem st last).2.2 = k - a + 1 ∧
        (∀ j, a ≤ j → j < k →
          ErrorHandler.should_continue (statsFrom st e a (j - a + 1)) (e j) =
            true) ∧
        (k = a + rem - 1 ∨
          ErrorHandler.should_continue (statsFrom st e a (k - a + 1)) (e k) =
            false) := by
  intro rem
  induction rem with
  | zero => intro a st last h1; simp at h1
  | succ n ih =>
      intro a st last _ hf
      have hfa : f a = .error (e a) := hf a (Nat.le_refl a) (by omega)
      have hupd : (ErrorHandler.handle_error st (e a)).1 = st.update (e a) := rfl
      by_cases hn : n = 0
      · subst hn
        by_cases hc : ErrorHandler.should_continue (st.update (e a)) (e a) = true
        · refine ⟨a, Nat.le_refl a, by omega, ?_, ?_, by intro j h1 h2; omega,
            Or.inl (by omega)⟩
          · simp [retryAux, hfa, hupd, hc]
          · simp [retryAux, hfa, hupd, hc]
        · refine ⟨a, Nat.le_refl a, by omega, ?_, ?_, by intro j h1 h2; omega,
            Or.inr ?_⟩
          · simp [retryAux, hfa, hupd, hc]
          · simp [retryAux, hfa, hupd, hc]
          · have heq : statsFrom st e a (a - a + 1) = st.update (e a) := by
              simp [statsFrom, Nat.sub_self]
            rw [heq]
            cases hb : ErrorHandler.should_continue (st.update (e a)) (e a) with
            | true => exact absurd hb hc
            | false => rfl
      · have hn1 : 1 ≤ n := by omega
        by_cases hc : ErrorHandler.should_continue (st.update (e a)) (e a) = true
        · obtain ⟨k, hk1, hk2, hout, hcalls, hmin, hfin⟩ :=
            ih (a + 1) (st.update (e a)) (some (e a)) hn1
              (by intro i h1 h2; exact hf i (by omega) (by omega))
          refine ⟨k, by omega, by omega, ?_, ?_, ?_, ?_⟩
          · simp only [retryAux, hfa, hupd, hc, if_true]
            exact hout
          · have hcc : (retryAux f a (n + 1) st last).2.2 =
                (retryAux f (a + 1) n (st.update (e a)) (some (e a))).2.2 + 1 := by
              simp [retryAux, hfa, hupd, hc]
            rw [hcc, hcalls]
            omega
          · intro j hj1 hj2
            by_cases hja : j = a
            · subst hja
              have : statsFrom st e j (j - j + 1) = st.update (e j) := by
                simp [statsFrom, Nat.sub_self]
              rw [this]
              exact hc
            · have h1j : a + 1 ≤ j := by omega
              have := hmin j h1j hj2
              rw [show j - a + 1 = (j - (a + 1) + 1) + 1 by omega,
                statsFrom_shift]
              exact this
          · rcases hfin with h | h
            · exact Or.inl (by omega)
            · refine Or.inr ?_
              rw [show k - a + 1 = (k - (a + 1) + 1) + 1 by omega,
                statsFrom_shift]
              exact h
        · refine ⟨a, Nat.le_refl a, by omega, ?_, ?_, by intro j h1 h2; omega,
            Or.inr ?_⟩
          · simp [retryAux, hfa, hupd, hc]
          · simp [retryAux, hfa, hupd, hc]
          · have : statsFrom st e a (a - a + 1) = st.update (e a) := by
              simp [statsFrom, Nat.sub_self]
            rw [this]
            cases hb : ErrorHandler.should_continue (st.update (e a)) (e a) with
            | true => exact absurd hb hc
            | false => rfl

/-- **C9.** When every one of the configured `max_attempts` invocations
raises, the retry wrapper never returns normally: it re-raises the last
error raised before it stopped.  It stops either because the attempts
are exhausted (`k = max_attempts - 1`) or because the attached error
handler's continuation policy said to stop after attempt `k`; in the
latter case exactly `k + 1` invocations were made, so no further
attempt follows the stop — and the policy approved continuing after
every earlier attempt. -/
theorem retry_exhaustion_reraises {α : Type} (config : RetryConfig)
    (f : Nat → Except AnalysisErrorM α) (e : Nat → AnalysisErrorM)
    (st0 : ErrorStats) (hmax : 1 ≤ config.max_attempts)
    (hf : ∀ i, i < config.max_attempts → f i = Except.error (e i)) :
    ∃ k, k < config.max_attempts ∧
      (retry_on_error config f st0).1 = Except.error (some (e k)) ∧
      (retry_on_error config f st0).2.2 = k + 1 ∧
      (∀ j, j < k →
        ErrorHandler.should_continue (statsFrom st0 e 0 (j + 1)) (e j) =
          true) ∧
      (k = config.max_attempts - 1 ∨
        ErrorHandler.should_continue (statsFrom st0 e 0 (k + 1)) (e k) =
          false) := by
  obtain ⟨k, hk1, hk2, hout, hcalls, hmin, hfin⟩ :=
    retryAux_all_fail f e config.max_attempts 0 st0 none hmax
      (by intro i h1 h2; exact hf i (by omega))
  refine ⟨k, by omega, hout, ?_, ?_, ?_⟩
  · rw [show (k : Nat) + 1 = k - 0 + 1 by omega]
    exact hcalls
  · intro j hj
    have := hmin j (Nat.zero_le j) hj
    rw [show (j : Nat) + 1 = j - 0 + 1 by omega]
    exact this
  · rcases hfin with h | h
    · exact Or.inl (by omega)
    · refine Or.inr ?_
      rw [show (k : Nat) + 1 = k - 0 + 1 by omega]
      exact h

/-- Witness for C9: two configured attempts, every invocation raising a
critical error — the continuation policy stops the loop after the
first attempt and that error is re-raised. -/
theorem retry_exhaustion_reraises_witness :
    ∃ k, k < 2 ∧
      (retry_on_error { max_attempts := 2 }
          (fun _ => Except.error
            { message := "boom", severity := ErrorSeverity.critical } :
            Nat → Except AnalysisErrorM Nat) {}).1 =
        Except.error (some
          { message := "boom", severity := ErrorSeverity.critical }) ∧
      (retry_on_error { max_attempts := 2 }
          (fun _ => Except.error
            { message := "boom", severity := ErrorSeverity.critical } :
            Nat → Except AnalysisErrorM Nat) {}).2.2 = k + 1 := by
  obtain ⟨k, hk1, hout, hcalls, _, _⟩ :=
    retry_exhaustion_reraises { max_attempts := 2 }
      (fun _ => Except.error
        { message := "boom", severity := ErrorSeverity.critical })
      (fun _ => { message := "boom", severity := ErrorSeverity.critical })
      {} (by decide) (fun i _ => rfl)
  exact ⟨k, hk1, hout, hcalls⟩

/-! ## Theorems for claim C4 -/

lemma flatten_depth_sorted {α : Type} (depthOf : α → Nat) (L : List (List α))
    (hblk : ∀ (i : Nat) (hi : i < L.length), ∀ x ∈ L.get ⟨i, hi⟩,
      depthOf x = i) :
    List.Pairwise (fun a b => depthOf a ≤ depthOf b) L.flatten := by
  rw [List.pairwise_flatten]
  constructor
  · intro l2 hl2
    rw [List.mem_iff_getElem] at hl2
    obtain ⟨i, hi, rfl⟩ := hl2
    have hall : ∀ x ∈ L[i], depthOf x = i := by
      intro x hx
      exact hblk i hi x (by simpa using hx)
    exact List.pairwise_of_forall_mem_list
      (fun a ha b hb => by rw [hall a ha, hall b hb])
  · rw [List.pairwise_iff_get]
    intro i j hij x hx y hy
    have hxv := hblk i i.isLt x (by simpa using hx)
    have hyv := hblk j j.isLt y (by simpa using hy)
    omega

lemma flatten_pos_mono {α : Type} (depthOf : α → Nat) (L : List (List α))
    (hblk : ∀ (i : Nat) (hi : i < L.length), ∀ x ∈ L.get ⟨i, hi⟩,
      depthOf x = i)
    (k₁ k₂ : Nat) (h₁ : k₁ < L.flatten.length) (h₂ : k₂ < L.flatten.length)
    (hlt : depthOf (L.flatten.get ⟨k₁, h₁⟩) <
      depthOf (L.flatten.get ⟨k₂, h₂⟩)) : k₁ < k₂ := by
  have hp := flatten_depth_sorted depthOf L hblk
  rw [List.pairwise_iff_get] at hp
  by_contra hcon
  rcases Nat.lt_or_ge k₂ k₁ with hc | hc
  · have := hp ⟨k₂, h₂⟩ ⟨k₁, h₁⟩ hc
    omega
  · have : k₁ = k₂ := by omega
    subst this
    omega

lemma mem_dispatchedAtLevel (st : CrawlerState) (d : Nat) (p : PageM)
    (h : p ∈ dispatchedAtLevel st d) : p.depth = d := by
  unfold dispatchedAtLevel at h
  split_ifs at h with hb
  · simp at h
  · rw [List.mem_filter] at h
    have := h.1
    simp only [SiteM.get_pages_by_depth, List.mem_map] at this
    obtain ⟨kv, hkv, rfl⟩ := this
    rw [List.mem_filter] at hkv
    exact beq_iff_eq.mp hkv.2

/-- **C4.** BFS level barrier for the level-by-level crawl loop: every
page dispatched at level `i` has depth `i`, and in the observable event
trace — the concatenation, in depth order, of one arbitrary
dispatch/settle interleaving per level, each covering exactly the pages
the loop dispatches at that level (`asyncio.gather` settles a whole
level before the loop advances) — every settle event of a depth-`d`
page occurs strictly before every dispatch event of a depth-`d+1`
page. -/
theorem bfs_level_barrier (env : UrlEnv) (linkOf : String → List String)
    (statusOf : String → Int) (now : Int) (st0 : CrawlerState)
    (blocks : List (List FetchEvent))
    (hlen : blocks.length = st0.site.config.max_depth + 1)
    (hsched : ∀ (i : Nat) (hi : i < blocks.length),
      LevelSchedule (dispatchedAtLevel
        (statesUpTo env linkOf statusOf now st0 i) i) i
        (blocks.get ⟨i, hi⟩)) :
    (∀ (i : Nat) (hi : i < blocks.length),
      ∀ p ∈ dispatchedAtLevel (statesUpTo env linkOf statusOf now st0 i) i,
        p.depth = i) ∧
    (∀ (k₁ k₂ : Nat) (h₁ : k₁ < blocks.flatten.length)
        (h₂ : k₂ < blocks.flatten.length) (u v : String) (d : Nat),
      blocks.flatten.get ⟨k₁, h₁⟩ = .settle u d →
      blocks.flatten.get ⟨k₂, h₂⟩ = .dispatch v (d + 1) →
      k₁ < k₂) := by
  have hblk : ∀ (i : Nat) (hi : i < blocks.length),
      ∀ ev ∈ blocks.get ⟨i, hi⟩, FetchEvent.depth ev = i := by
    intro i hi ev hev
    exact ((hsched i hi).1 ev hev).1
  refine ⟨?_, ?_⟩
  · intro i hi p hp
    exact mem_dispatchedAtLevel _ i p hp
  · intro k₁ k₂ h₁ h₂ u v d hs hd
    refine flatten_pos_mono FetchEvent.depth blocks hblk k₁ k₂ h₁ h₂ ?_
    rw [hs, hd]
    exact Nat.lt_succ_self d

set_option maxHeartbeats 4000000 in
/-- Witness for C4: the demo crawl (seed linking to one child,
`max_depth = 1`, every fetch returning 200) — the loop dispatches the
seed at level 0 and the discovered child at level 1, and applying the
barrier theorem to its schedule places the seed's settle (position 1)
before the child's dispatch (position 2). -/
theorem bfs_level_barrier_witness :
    dispatchedAtLevel
      (statesUpTo permitEnv demoLinks (fun _ => 200) 0 demoCrawler 0) 0 =
      [demoSeedPage] ∧
    dispatchedAtLevel
      (statesUpTo permitEnv demoLinks (fun _ => 200) 0 demoCrawler 1) 1 =
      [demoChildPage] ∧
    (1 : Nat) < 2 := by
  refine ⟨by decide, by decide, ?_⟩
  have h := bfs_level_barrier permitEnv demoLinks (fun _ => 200) 0
    demoCrawler demoBlocks rfl ?_
  · exact h.2 1 2 (by decide) (by decide) "https://example.com"
      "https://example.com/a" 0 (by decide) (by decide)
  · intro i hi
    simp only [demoBlocks, List.length_cons, List.length_nil] at hi
    interval_cases i
    · show LevelSchedule (dispatchedAtLevel
        (statesUpTo permitEnv demoLinks (fun _ => 200) 0 demoCrawler 0) 0) 0
        [.dispatch "https://example.com" 0, .settle "https://example.com" 0]
      unfold LevelSchedule
      decide
    · show LevelSchedule (dispatchedAtLevel
        (statesUpTo permitEnv demoLinks (fun _ => 200) 0 demoCrawler 1) 1) 1
        [.dispatch "https://example.com/a" 1, .settle "https://example.com/a" 1]
      unfold LevelSchedule
      decide

end GetSiteDNA
